import Mathlib

/-!
Shallow embedding of the query/filter engine of `src/backend/app.py`
(NRTR resources API): record values, Python truthiness/equality/str,
`normalize`, `apply_filters`, the result-limit logic of the list
endpoints, lookup-by-id, `tally`, and the demo `login` handler.
-/

namespace NRTR

/-- A scalar JSON value held in a record field: a string, an integer, or
null.  `vNull` also stands for Python `None`, which `dict.get` returns
for a missing key. -/
inductive Value where
  | vStr : String → Value
  | vInt : Int → Value
  | vNull : Value
deriving DecidableEq, Repr

/-- A record: a mapping from string keys to scalar values (association
list, keys unique by convention as in a Python dict). -/
abbrev Record := List (String × Value)

/-- `item.get(field)` without a default: `some v` when the key is
present, `none` when absent. -/
def getOpt (r : Record) (f : String) : Option Value :=
  List.lookup f r

/-- `item.get(field)` as Python sees it: a missing key yields `None`,
modelled as `vNull` (so a stored null and a missing key coincide, just
as in Python). -/
def pyGetV (r : Record) (f : String) : Value :=
  (getOpt r f).getD Value.vNull

/-- Python truthiness of a scalar value. -/
def truthy : Value → Bool
  | .vStr s => s != ""
  | .vInt n => n != 0
  | .vNull => false

/-- Python `==` between scalar values: equal only within one type. -/
def pyEq : Value → Value → Bool
  | .vStr a, .vStr b => a == b
  | .vInt a, .vInt b => a == b
  | .vNull, .vNull => true
  | _, _ => false

/-- Python `str()` of a scalar value. -/
def pyStr : Value → String
  | .vStr s => s
  | .vInt n => toString n
  | .vNull => "None"

/-- Python `str.lower()`, per character (characterwise ASCII lowering,
which is what the data in this repository exercises). -/
def lowerStr (s : String) : String :=
  ⟨s.data.map Char.toLower⟩

/-- `normalize(value)` from app.py: lower-case a string, leave any other
value unchanged. -/
def normalize : Value → Value
  | .vStr s => .vStr (lowerStr s)
  | v => v

/-- The cleaning step of `apply_filters`:
`{k: v for k, v in exact_filters.items() if v}` — keep only entries
whose expected value is present and non-empty. -/
def cleanedFilters (ef : List (String × Option String)) : List (String × String) :=
  ef.filterMap fun p =>
    match p.2 with
    | some s => if s != "" then some (p.1, s) else none
    | none => none

/-- `q = search_query.lower() if search_query else None`. -/
def qNorm (sq : Option String) : Option String :=
  match sq with
  | some s => if s != "" then some (lowerStr s) else none
  | none => none

/-- One exact-filter check inside `matches`: the field's value must not
be `None` and `normalize(value)` must equal `normalize(expected)`. -/
def exactMatch (r : Record) (f e : String) : Bool :=
  let value := pyGetV r f
  !(value == Value.vNull) && pyEq (normalize value) (normalize (.vStr e))

/-- One summand of the haystack: `str(item.get(field, ""))` — the empty
string for a missing field, Python `str` of the value otherwise. -/
def searchEntry (r : Record) (f : String) : String :=
  match getOpt r f with
  | none => ""
  | some v => pyStr v

/-- `" ".join(str(item.get(field, "")) for field in search_fields)`. -/
def haystack (r : Record) (sf : List String) : String :=
  String.intercalate " " (sf.map (searchEntry r))

/-- Python's substring test `needle in hay` on strings, as contiguous
containment of the character sequence. -/
def isSubstr (needle hay : String) : Bool :=
  decide (List.IsInfix needle.data hay.data)

/-- The `matches` closure of `apply_filters`: every cleaned exact filter
passes, and when a (truthy) query is present it occurs as a substring of
the lower-cased haystack. -/
def matchesRec (cf : List (String × String)) (q : Option String)
    (sf : List String) (r : Record) : Bool :=
  cf.all (fun p => exactMatch r p.1 p.2) &&
  (match q with
   | none => true
   | some ql => if ql != "" then isSubstr ql (lowerStr (haystack r sf)) else true)

/-- `apply_filters(items, exact_filters=…, search_query=…, search_fields=…)`
from app.py: clean the exact filters, lower the query, keep the records
that match. -/
def apply_filters (items : List Record) (exact_filters : List (String × Option String))
    (search_query : Option String) (search_fields : List String) : List Record :=
  items.filter (matchesRec (cleanedFilters exact_filters) (qNorm search_query) search_fields)

/-- The result-limit logic shared by `list_resources` and
`list_opportunities`: `if limit: filtered = filtered[: max(limit, 0)]`.
`none` models an absent `limit` query parameter. -/
def applyLimit (filtered : List Record) (limit : Option Int) : List Record :=
  match limit with
  | some l => if l != 0 then filtered.take (max l 0).toNat else filtered
  | none => filtered

/-- `GET /api/resources`: filter on `county`/`type`, search the four
resource fields, apply the limit, return `(count, results)`. -/
def list_resources (resources : List Record) (county rtype q : Option String)
    (limit : Option Int) : Nat × List Record :=
  let filtered := apply_filters resources [("county", county), ("type", rtype)] q
    ["name", "description", "county", "type"]
  let filtered := applyLimit filtered limit
  (filtered.length, filtered)

/-- `GET /api/opportunities`: filter on `county`/`category`, search the
four opportunity fields, apply the limit, return `(count, results)`. -/
def list_opportunities (opportunities : List Record) (county category q : Option String)
    (limit : Option Int) : Nat × List Record :=
  let filtered := apply_filters opportunities
    [("county", county), ("category", category)] q
    ["title", "description", "county", "category"]
  let filtered := applyLimit filtered limit
  (filtered.length, filtered)

/-- The body of a lookup response: the record with HTTP 200, or an error
message with an HTTP status. -/
inductive LookupResponse where
  | ok : Record → LookupResponse
  | err : String → Nat → LookupResponse
deriving DecidableEq, Repr

/-- `r.get("id") == resource_id` (a missing `id` compares unequal). -/
def idMatches (rid : String) (r : Record) : Bool :=
  pyEq (pyGetV r "id") (.vStr rid)

/-- `GET /api/resources/<resource_id>`: the first record whose `id`
equals the path id, else 404 with `{error: "Resource not found"}`. -/
def get_resource (resources : List Record) (rid : String) : LookupResponse :=
  match resources.filter (idMatches rid) with
  | [] => .err "Resource not found" 404
  | r :: _ => .ok r

/-- `GET /api/opportunities/<opportunity_id>`: the first record whose
`id` equals the path id, else 404 with `{error: "Opportunity not found"}`. -/
def get_opportunity (opportunities : List Record) (oid : String) : LookupResponse :=
  match opportunities.filter (idMatches oid) with
  | [] => .err "Opportunity not found" 404
  | r :: _ => .ok r

/-- `counts[k] = counts.get(k, 0) + 1` on an insertion-ordered dict:
bump the first key equal (by Python `==`) to `k`, or append `(k, 1)`. -/
def bump : List (Value × Nat) → Value → List (Value × Nat)
  | [], k => [(k, 1)]
  | (k', n) :: rest, k =>
      if pyEq k' k then (k', n + 1) :: rest else (k', n) :: bump rest k

/-- One iteration of `tally`'s loop: skip a falsy or missing key value,
otherwise bump its count. -/
def tallyStep (key : String) (counts : List (Value × Nat)) (item : Record) :
    List (Value × Nat) :=
  let k := pyGetV item key
  if truthy k then bump counts k else counts

/-- `tally(items, key)` from the stats endpoint: count occurrences of
each truthy value of `key`, as an insertion-ordered dict. -/
def tally (items : List Record) (key : String) : List (Value × Nat) :=
  items.foldl (tallyStep key) []

/-- `counts.get(v, 0)` on the tally dict. -/
def lookupCount (counts : List (Value × Nat)) (v : Value) : Nat :=
  match counts.find? (fun p => pyEq p.1 v) with
  | some p => p.2
  | none => 0

/-- The sum of all counts in a tally dict. -/
def sumCounts (counts : List (Value × Nat)) : Nat :=
  (counts.map (fun p => p.2)).sum

/-- The body and status of the login response. -/
structure LoginResponse where
  success : Bool
  message : String
  status : Nat
deriving DecidableEq, Repr

/-- The static demo user mapping `USERS` from app.py. -/
def USERS : List (String × String) :=
  [("demo@nrtr.org", "demo123"), ("admin@nrtr.org", "adminpass")]

/-- `POST /api/login`: 200 success iff the email is in `USERS` with
exactly the supplied password, else 401 with a generic message. -/
def login (email password : String) : LoginResponse :=
  match List.lookup email USERS with
  | some stored =>
      if stored == password then ⟨true, "Login successful", 200⟩
      else ⟨false, "Invalid credentials", 401⟩
  | none => ⟨false, "Invalid credentials", 401⟩

/-- The matching rule for one exact filter as the spec states it: a
string value equals the expected value case-insensitively; a non-string
value is compared to the expected value by native equality. -/
def exactFilterSpec (v : Value) (e : String) : Prop :=
  match v with
  | .vStr s => lowerStr s = lowerStr e
  | v => v = .vStr e

/-- Sample record: `{id:"r1", type:"food"}`. -/
def recFood : Record := [("id", .vStr "r1"), ("type", .vStr "food")]

/-- Sample record: `{id:"r2", type:"shelter"}`. -/
def recShelter : Record := [("id", .vStr "r2"), ("type", .vStr "shelter")]

/-! ### Helper lemmas -/

theorem pyEq_iff (a b : Value) : pyEq a b = true ↔ a = b := by
  cases a <;> cases b <;> simp [pyEq]

theorem lowerStr_data (s : String) : (lowerStr s).data = s.data.map Char.toLower := rfl

theorem lowerStr_eq_empty_iff (s : String) : lowerStr s = "" ↔ s = "" := by
  constructor
  · intro h
    apply String.ext
    have h2 : s.data.map Char.toLower = [] := by
      rw [← lowerStr_data, h]
    exact List.map_eq_nil_iff.mp h2
  · intro h
    subst h
    rfl

theorem lowerStr_bne_empty {s : String} (h : s ≠ "") : (lowerStr s != "") = true := by
  simp only [bne_iff_ne, ne_eq]
  intro hc
  exact h ((lowerStr_eq_empty_iff s).mp hc)

theorem isSubstr_empty_right {q : String} (h : q ≠ "") : isSubstr q "" = false := by
  simp only [isSubstr, decide_eq_false_iff_not, List.infix_nil]
  intro hd
  exact h (String.ext hd)

theorem mem_apply_filters {items : List Record} {ef : List (String × Option String)}
    {sq : Option String} {sf : List String} {r : Record} :
    r ∈ apply_filters items ef sq sf ↔
      r ∈ items ∧ matchesRec (cleanedFilters ef) (qNorm sq) sf r = true :=
  List.mem_filter

theorem exactMatch_iff (r : Record) (f e : String) :
    exactMatch r f e = true ↔ pyGetV r f ≠ Value.vNull ∧ exactFilterSpec (pyGetV r f) e := by
  unfold exactMatch exactFilterSpec
  cases h : pyGetV r f <;> simp [normalize, pyEq, lowerStr_eq_empty_iff]

theorem find?_eq_head_filter {α : Type} (p : α → Bool) (l : List α) :
    l.find? p = (l.filter p).head? := by
  induction l with
  | nil => rfl
  | cons a t ih =>
      cases h : p a with
      | true => rw [List.find?_cons_of_pos _ h, List.filter_cons_of_pos h, List.head?_cons]
      | false =>
          have h' : ¬p a = true := by simp [h]
          rw [List.find?_cons_of_neg _ h', List.filter_cons_of_neg h', ih]

/-! ### Claim theorems -/

/-- Claim C4: for every record sequence and every combination of exact
filters, search query, and search fields, `apply_filters` is idempotent:
applying it a second time with the same criteria to its own output
returns that output unchanged. -/
theorem claim4_apply_filters_idempotent :
    ∀ (items : List Record) (ef : List (String × Option String))
      (sq : Option String) (sf : List String),
      apply_filters (apply_filters items ef sq sf) ef sq sf =
        apply_filters items ef sq sf := by
  intro items ef sq sf
  unfold apply_filters
  rw [List.filter_filter]
  simp

/-- Claim C5: for every input sequence and filter criteria, the output
of `apply_filters` is a subsequence of the input: every output record
occurs in the input, in the same relative order (stable filter). -/
theorem claim5_apply_filters_sublist :
    ∀ (items : List Record) (ef : List (String × Option String))
      (sq : Option String) (sf : List String),
      (apply_filters items ef sq sf).Sublist items := by
  intro items ef sq sf
  exact List.filter_sublist items

/-- Claim C6: an exact-filter entry whose expected value is absent
(`none`) or the empty string is dropped by the cleaning step, so
`apply_filters` returns exactly what it returns with that entry
omitted: an unspecified or empty exact filter imposes no constraint. -/
theorem claim6_empty_filter_no_constraint :
    ∀ (items : List Record) (ef₁ ef₂ : List (String × Option String))
      (f : String) (v : Option String) (sq : Option String) (sf : List String),
      (v = none ∨ v = some "") →
      apply_filters items (ef₁ ++ (f, v) :: ef₂) sq sf =
        apply_filters items (ef₁ ++ ef₂) sq sf := by
  intro items ef₁ ef₂ f v sq sf hv
  have hclean : cleanedFilters (ef₁ ++ (f, v) :: ef₂) = cleanedFilters (ef₁ ++ ef₂) := by
    unfold cleanedFilters
    rw [List.filterMap_append, List.filterMap_append]
    rcases hv with h | h <;> subst h <;> simp
  unfold apply_filters
  rw [hclean]

/-- Witness for C6 at a concrete input: an empty `county` filter behaves
exactly like omitting `county`. -/
theorem claim6_witness :
    apply_filters [recFood] ([] ++ ("county", some "") :: []) none [] =
      apply_filters [recFood] ([] ++ []) none [] :=
  claim6_empty_filter_no_constraint [recFood] [] [] "county" (some "") none []
    (Or.inr rfl)

/-- Claim C10: with a non-empty search query and an empty search-field
list, every record's haystack is the empty string, so `apply_filters`
returns the empty sequence. -/
theorem claim10_empty_search_fields :
    ∀ (items : List Record) (ef : List (String × Option String)) (s : String),
      s ≠ "" → apply_filters items ef (some s) [] = [] := by
  intro items ef s hs
  unfold apply_filters
  rw [List.filter_eq_nil_iff]
  intro r _
  have hq : qNorm (some s) = some (lowerStr s) := by
    simp [qNorm, hs]
  have hhay : haystack r [] = "" := rfl
  have hsub : isSubstr (lowerStr s) (lowerStr (haystack r [])) = false := by
    rw [hhay]
    exact isSubstr_empty_right fun hc => hs ((lowerStr_eq_empty_iff s).mp hc)
  simp [matchesRec, hq, lowerStr_bne_empty hs, hsub]

/-- Witness for C10 at a concrete input: searching for `"x"` with no
search fields filters everything out. -/
theorem claim10_witness :
    apply_filters [recFood] [] (some "x") [] = [] :=
  claim10_empty_search_fields [recFood] [] "x" (by decide)

/-- Counterexample to C3 as stated: the claim says a limit of zero is
clamped to zero elements, but `if limit:` treats `0` as falsy, so
`limit=0` on the resources endpoint leaves a one-record result intact
rather than truncating it to the empty sequence. -/
theorem claim3_counterexample :
    (list_resources [recFood] none none none (some 0)).2 = [recFood] ∧
      (list_resources [recFood] none none none (some 0)).2 ≠ [] := by
  constructor
  · decide
  · decide

/-- Claim C3 (amended): on the list endpoints, an absent limit or a
limit of exactly zero leaves the filtered sequence untruncated (zero is
falsy, hence "no limit"); a negative limit yields zero elements; any
non-zero limit truncates to the first `max(limit, 0)` elements; and
both endpoints apply exactly this truncation to their filtered
results. -/
theorem claim3_limit_semantics :
    ∀ (filtered resources : List Record) (l : Int)
      (county rtype q : Option String) (limit : Option Int),
      applyLimit filtered none = filtered ∧
      applyLimit filtered (some 0) = filtered ∧
      (l < 0 → applyLimit filtered (some l) = []) ∧
      (l ≠ 0 → applyLimit filtered (some l) = filtered.take (max l 0).toNat) ∧
      (list_resources resources county rtype q limit).2 =
        applyLimit (apply_filters resources [("county", county), ("type", rtype)] q
          ["name", "description", "county", "type"]) limit ∧
      (list_opportunities resources county rtype q limit).2 =
        applyLimit (apply_filters resources [("county", county), ("category", rtype)] q
          ["title", "description", "county", "category"]) limit := by
  intro filtered resources l county rtype q limit
  refine ⟨rfl, rfl, ?_, ?_, rfl, rfl⟩
  · intro hl
    have h0 : (l != 0) = true := by simp [bne_iff_ne]; omega
    have hmax : max l 0 = 0 := by omega
    simp [applyLimit, h0, hmax]
  · intro hl
    have h0 : (l != 0) = true := by simp [bne_iff_ne, hl]
    simp [applyLimit, h0]

/-- Claim C9: login succeeds with 200 and `success:true` iff the email
is in the static `USERS` mapping with exactly the supplied password;
any other pair gets 401, `success:false`, and the same generic message
whether the email is unknown or the password wrong; the two demo
exchanges from the spec behave as documented. -/
theorem claim9_login :
    (∀ e p, login e p = ⟨true, "Login successful", 200⟩ ↔
      List.lookup e USERS = some p) ∧
    (∀ e p, List.lookup e USERS ≠ some p →
      login e p = ⟨false, "Invalid credentials", 401⟩) ∧
    login "demo@nrtr.org" "demo123" = ⟨true, "Login successful", 200⟩ ∧
    login "demo@nrtr.org" "wrong" = ⟨false, "Invalid credentials", 401⟩ := by
  refine ⟨?_, ?_, by decide, by decide⟩
  · intro e p
    unfold login
    cases h : List.lookup e USERS with
    | none => simp
    | some stored =>
        by_cases hs : stored = p <;> simp [hs]
  · intro e p hne
    unfold login
    cases h : List.lookup e USERS with
    | none => simp
    | some stored =>
        have hs : stored ≠ p := fun hc => hne (hc ▸ h)
        simp [hs]

/-- Claim C7: lookup-by-identifier returns the first record in dataset
order whose `id` equals the given identifier (first match wins on
duplicates), and yields the 404 structured error body exactly when no
record matches — for both the resource and the opportunity endpoint. -/
theorem claim7_get_by_id :
    ∀ (dataset : List Record) (rid : String),
      (get_resource dataset rid = .err "Resource not found" 404 ↔
        ∀ r ∈ dataset, idMatches rid r = false) ∧
      (∀ r, dataset.find? (idMatches rid) = some r →
        get_resource dataset rid = .ok r) ∧
      (get_opportunity dataset rid = .err "Opportunity not found" 404 ↔
        ∀ r ∈ dataset, idMatches rid r = false) ∧
      (∀ r, dataset.find? (idMatches rid) = some r →
        get_opportunity dataset rid = .ok r) := by
  intro dataset rid
  have hfind : dataset.find? (idMatches rid) = (dataset.filter (idMatches rid)).head? :=
    find?_eq_head_filter _ _
  cases hf : dataset.filter (idMatches rid) with
  | nil =>
      have hall : ∀ r ∈ dataset, idMatches rid r = false := by
        intro r hr
        simpa using List.filter_eq_nil_iff.mp hf r hr
      refine ⟨?_, ?_, ?_, ?_⟩
      · unfold get_resource
        rw [hf]
        simpa using hall
      · intro r hr
        rw [hfind, hf] at hr
        simp at hr
      · unfold get_opportunity
        rw [hf]
        simpa using hall
      · intro r hr
        rw [hfind, hf] at hr
        simp at hr
  | cons r0 t =>
      have hmem : r0 ∈ dataset ∧ idMatches rid r0 = true := by
        have hin : r0 ∈ dataset.filter (idMatches rid) := by
          rw [hf]
          exact List.mem_cons_self r0 t
        exact List.mem_filter.mp hin
      have hnall : ¬ ∀ r ∈ dataset, idMatches rid r = false := by
        intro hall
        have hcontra := hall r0 hmem.1
        rw [hmem.2] at hcontra
        simp at hcontra
      refine ⟨?_, ?_, ?_, ?_⟩
      · unfold get_resource
        rw [hf]
        exact iff_of_false (by simp) hnall
      · intro r hr
        rw [hfind, hf] at hr
        simp only [List.head?_cons, Option.some.injEq] at hr
        unfold get_resource
        rw [hf, hr]
      · unfold get_opportunity
        rw [hf]
        exact iff_of_false (by simp) hnall
      · intro r hr
        rw [hfind, hf] at hr
        simp only [List.head?_cons, Option.some.injEq] at hr
        unfold get_opportunity
        rw [hf, hr]

/-- Claim C1: a record kept by `apply_filters` satisfies every surviving
exact filter — the field is present and non-null, a string value equals
the expected value case-insensitively, a non-string value is compared
to the expected value by native equality; a record failing any
surviving filter field is excluded; and filtering `type="Food"` keeps a
record with `type:"food"`. -/
theorem claim1_exact_filter_semantics :
    (∀ (items : List Record) (ef : List (String × Option String))
        (sq : Option String) (sf : List String) (r : Record),
        r ∈ apply_filters items ef sq sf →
        ∀ f e, (f, e) ∈ cleanedFilters ef →
          pyGetV r f ≠ Value.vNull ∧ exactFilterSpec (pyGetV r f) e) ∧
    (∀ (items : List Record) (ef : List (String × Option String))
        (sq : Option String) (sf : List String) (r : Record) (f e : String),
        (f, e) ∈ cleanedFilters ef →
        ¬(pyGetV r f ≠ Value.vNull ∧ exactFilterSpec (pyGetV r f) e) →
        r ∉ apply_filters items ef sq sf) ∧
    apply_filters [recFood] [("type", some "Food")] none [] = [recFood] := by
  have key : ∀ (ef : List (String × Option String)) (sq : Option String)
      (sf : List String) (r : Record),
      matchesRec (cleanedFilters ef) (qNorm sq) sf r = true →
      ∀ f e, (f, e) ∈ cleanedFilters ef →
        pyGetV r f ≠ Value.vNull ∧ exactFilterSpec (pyGetV r f) e := by
    intro ef sq sf r hm f e hfe
    unfold matchesRec at hm
    simp only [Bool.and_eq_true] at hm
    obtain ⟨hall, -⟩ := hm
    have hx := List.all_eq_true.mp hall (f, e) hfe
    exact (exactMatch_iff r f e).mp hx
  refine ⟨?_, ?_, by decide⟩
  · intro items ef sq sf r hr
    exact key ef sq sf r (mem_apply_filters.mp hr).2
  · intro items ef sq sf r f e hfe hbad hr
    exact hbad (key ef sq sf r (mem_apply_filters.mp hr).2 f e hfe)

/-- Claim C2: with a non-empty search query, a record passes
`apply_filters` exactly when it passes the exact filters and the
lower-cased query is a substring of the lower-cased space-joined
haystack built from the listed search fields; a record whose only
occurrence of the query sits in a field outside the list is excluded. -/
theorem claim2_search_semantics :
    (∀ (items : List Record) (ef : List (String × Option String))
        (s : String) (sf : List String) (r : Record), s ≠ "" →
        (r ∈ apply_filters items ef (some s) sf ↔
          r ∈ items ∧
            (cleanedFilters ef).all (fun p => exactMatch r p.1 p.2) = true ∧
            isSubstr (lowerStr s) (lowerStr (haystack r sf)) = true)) ∧
    apply_filters [[("name", Value.vStr "x"), ("note", Value.vStr "shelter")]]
      [] (some "shelter") ["name"] = [] := by
  refine ⟨?_, by decide⟩
  intro items ef s sf r hs
  rw [mem_apply_filters]
  have hq : qNorm (some s) = some (lowerStr s) := by
    simp [qNorm, hs]
  rw [hq]
  unfold matchesRec
  simp [lowerStr_bne_empty hs, Bool.and_eq_true, and_assoc]

/-- Witness for C2 at a concrete input: searching `"SHELT"` over the
`type` field keeps exactly the shelter record. -/
theorem claim2_witness :
    recShelter ∈ apply_filters [recFood, recShelter] [] (some "SHELT") ["type"] :=
  ((claim2_search_semantics.1 [recFood, recShelter] [] "SHELT" ["type"] recShelter
    (by decide)).mpr (by refine ⟨by decide, by decide, by decide⟩))

theorem lookupCount_cons (k : Value) (n : Nat) (rest : List (Value × Nat)) (v : Value) :
    lookupCount ((k, n) :: rest) v = if pyEq k v = true then n else lookupCount rest v := by
  unfold lookupCount
  rw [List.find?_cons]
  cases h : pyEq k v with
  | true => simp [h]
  | false => simp [h]

theorem bump_lookup (c : List (Value × Nat)) (k v : Value) :
    lookupCount (bump c k) v = lookupCount c v + (if pyEq k v = true then 1 else 0) := by
  induction c with
  | nil =>
      have hb : bump [] k = [(k, 1)] := rfl
      rw [hb, lookupCount_cons]
      cases h : pyEq k v <;> simp [lookupCount]
  | cons p rest ih =>
      obtain ⟨k', n⟩ := p
      cases hb : pyEq k' k with
      | true =>
          have hkk : k' = k := (pyEq_iff k' k).mp hb
          subst hkk
          have hstep : bump ((k', n) :: rest) k' = (k', n + 1) :: rest := by
            simp [bump, (pyEq_iff k' k').mpr rfl]
          rw [hstep, lookupCount_cons, lookupCount_cons]
          cases h : pyEq k' v <;> simp
      | false =>
          have hstep : bump ((k', n) :: rest) k = (k', n) :: bump rest k := by
            simp [bump, hb]
          rw [hstep, lookupCount_cons, lookupCount_cons]
          cases hv : pyEq k' v with
          | true =>
              have hk'v : k' = v := (pyEq_iff _ _).mp hv
              have hkv : pyEq k v = false := by
                cases hkv : pyEq k v with
                | true =>
                    have hkveq : k = v := (pyEq_iff _ _).mp hkv
                    have : pyEq k' k = true := (pyEq_iff k' k).mpr (by rw [hk'v, hkveq])
                    rw [hb] at this
                    exact absurd this (by simp)
                | false => rfl
              simp [hkv]
          | false => simp [ih]

theorem bump_sum (c : List (Value × Nat)) (k : Value) :
    sumCounts (bump c k) = sumCounts c + 1 := by
  induction c with
  | nil => rfl
  | cons p rest ih =>
      obtain ⟨k', n⟩ := p
      cases hb : pyEq k' k with
      | true =>
          simp [bump, hb, sumCounts]
          omega
      | false =>
          have hstep : bump ((k', n) :: rest) k = (k', n) :: bump rest k := by
            simp [bump, hb]
          rw [hstep]
          simp only [sumCounts, List.map_cons, List.sum_cons] at *
          omega

theorem tally_go_lookup (key : String) (items : List Record) :
    ∀ (acc : List (Value × Nat)) (v : Value),
      lookupCount (items.foldl (tallyStep key) acc) v =
        lookupCount acc v +
          items.countP (fun it => truthy (pyGetV it key) && pyEq (pyGetV it key) v) := by
  induction items with
  | nil => intro acc v; simp
  | cons it rest ih =>
      intro acc v
      rw [List.foldl_cons, ih, List.countP_cons]
      unfold tallyStep
      cases ht : truthy (pyGetV it key) with
      | true =>
          rw [if_pos ht, bump_lookup]
          cases hpe : pyEq (pyGetV it key) v with
          | true =>
              simp [ht, hpe]
              omega
          | false => simp [ht, hpe]
      | false =>
          rw [if_neg (by simp [ht])]
          simp [ht]

theorem tally_go_sum (key : String) (items : List Record) :
    ∀ (acc : List (Value × Nat)),
      sumCounts (items.foldl (tallyStep key) acc) =
        sumCounts acc + items.countP (fun it => truthy (pyGetV it key)) := by
  induction items with
  | nil => intro acc; simp
  | cons it rest ih =>
      intro acc
      rw [List.foldl_cons, ih, List.countP_cons]
      unfold tallyStep
      cases ht : truthy (pyGetV it key) with
      | true =>
          rw [if_pos ht, bump_sum]
          simp [ht]
          omega
      | false =>
          rw [if_neg (by simp [ht])]
          simp [ht]

/-- Claim C8: `tally` maps every truthy value of the key to the number
of records holding that value, gives count zero to every falsy value
(records with a missing or falsy key value are excluded), and the
counts sum to the total number of records bearing a truthy value for
the key. -/
theorem claim8_tally :
    ∀ (items : List Record) (key : String),
      (∀ v, truthy v = true →
        lookupCount (tally items key) v =
          items.countP (fun it => pyEq (pyGetV it key) v)) ∧
      (∀ v, truthy v = false → lookupCount (tally items key) v = 0) ∧
      sumCounts (tally items key) =
        items.countP (fun it => truthy (pyGetV it key)) := by
  intro items key
  refine ⟨?_, ?_, ?_⟩
  · intro v hv
    unfold tally
    rw [tally_go_lookup]
    have h0 : lookupCount [] v = 0 := rfl
    rw [h0, Nat.zero_add]
    apply List.countP_congr
    intro it _
    constructor
    · intro h
      exact (Bool.and_eq_true _ _ ▸ h).2
    · intro h
      have heq : pyGetV it key = v := (pyEq_iff _ _).mp h
      rw [heq]
      simp [hv, (pyEq_iff v v).mpr rfl]
  · intro v hv
    unfold tally
    rw [tally_go_lookup]
    have h0 : lookupCount [] v = 0 := rfl
    rw [h0, Nat.zero_add, List.countP_eq_zero]
    intro it _
    simp only [Bool.and_eq_true, not_and]
    intro ht hpe
    have heq : pyGetV it key = v := (pyEq_iff _ _).mp hpe
    rw [heq, hv] at ht
    exact Bool.false_ne_true ht
  · unfold tally
    rw [tally_go_sum]
    have h0 : sumCounts [] = 0 := rfl
    rw [h0, Nat.zero_add]

end NRTR
